import Mathlib

/-!
Shallow embedding of the TaskManager server core: the task controller
(`src/server/src/controllers/task.controller.ts`), the zod schemas
(`task.schemas.ts`), the project controller and the project-access library
(`projectAccess.ts`), and the reminder sweep (`taskReminderScheduler`).

Conventions of the embedding:
* UUID columns become `Nat` identifiers; `TIMESTAMPTZ` columns become `Int`
  (milliseconds since epoch, the unit `Date.now()` uses).
* A database is an explicit record of row lists; SQL statements become pure
  functions on it.  Rows appear in insertion order, which the schema keeps
  equal to `created_at` order, so `ORDER BY created_at ASC LIMIT 1` is
  `List.find?`.
* An express handler that throws `HttpError` becomes a function returning the
  post-state of the database paired with `Except HttpError result`; a thrown
  error commits nothing beyond the statements already run, which the
  embedding reflects by returning the state those statements produced
  (a rolled-back transaction returns the original state).
* `ZodError` is mapped by the error-handler middleware to HTTP 400
  ("Validation failed"), so schema parsing returns that `HttpError` directly.
-/

namespace TaskManager

/-- `TASK_STATUS_VALUES = ['TODO', 'IN_PROGRESS', 'DONE']` from task.schemas.ts. -/
inductive TaskStatus where
  | TODO
  | IN_PROGRESS
  | DONE
deriving DecidableEq

/-- A row of the `tasks` table (bootstrap.ts): `user_id`, `project_id`,
`assignee_id`, `due_date`, `completed_at`, `reminder_sent_at` are all
nullable; `project_id` and `assignee_id` are added by `ALTER TABLE` with no
default, so freshly inserted rows hold NULL there unless the INSERT names
them. -/
structure Task where
  id : Nat
  title : String
  description : String
  status : TaskStatus
  userId : Option Nat
  projectId : Option Nat
  assigneeId : Option Nat
  dueDate : Option Int
  completedAt : Option Int
  reminderSentAt : Option Int
  createdAt : Int
  updatedAt : Int
deriving DecidableEq

/-- A row of the `projects` table. -/
structure Project where
  id : Nat
  name : String
  description : Option String
  ownerId : Nat
  createdAt : Int
  updatedAt : Int
deriving DecidableEq

/-- A row of the `project_members` table; `role TEXT NOT NULL DEFAULT 'member'`
is stored as a raw string, normalized only when read. -/
structure ProjectMemberRow where
  id : Nat
  projectId : Nat
  userId : Nat
  role : String
  createdAt : Int
deriving DecidableEq

/-- A row of the `users` table (the fields the modelled queries touch). -/
structure User where
  id : Nat
  email : String
  name : Option String
deriving DecidableEq

/-- The database: one list per table, in insertion (= creation-time) order. -/
structure DBState where
  users : List User
  projects : List Project
  projectMembers : List ProjectMemberRow
  tasks : List Task
deriving DecidableEq

/-- `HttpError` from utils/httpError.ts: a status code and a message. -/
structure HttpError where
  statusCode : Nat
  message : String
deriving DecidableEq

/-- The 400 response the errorHandler middleware produces for a `ZodError`. -/
def validationFailed : HttpError := ⟨400, "Validation failed"⟩

/-! ## task.schemas.ts -/

/-- A raw request body as the task schemas see it.  `none` means the key is
absent.  `dueDate` distinguishes an absent key (`none`), an explicit JSON
null (`some none`) and a datetime value (`some (some t)`), matching
`z.union([z.string().datetime(), z.null()]).optional()`.  `projectId` and
`assigneeId` are keys a client may send but that no task schema declares:
`z.object` strips unknown keys. -/
structure RawTaskBody where
  title : Option String
  description : Option String
  status : Option TaskStatus
  dueDate : Option (Option Int)
  projectId : Option Nat
  assigneeId : Option Nat
deriving DecidableEq

/-- `z.string().min(3).max(120)` on the title. -/
def validTitle (t : String) : Bool :=
  decide (3 ≤ t.length) && decide (t.length ≤ 120)

/-- `z.string().min(1).max(2000)` on the description. -/
def validDescription (d : String) : Bool :=
  decide (1 ≤ d.length) && decide (d.length ≤ 2000)

/-- An optional field is valid when absent or when its value passes. -/
def optFieldValid {α : Type} (o : Option α) (p : α → Bool) : Bool :=
  match o with
  | some v => p v
  | none => true

/-- Output of `createTaskSchema.parse`: title and description required,
status and dueDate optional (`baseTaskSchema.partial({ status: true })`). -/
structure CreateTaskInput where
  title : String
  description : String
  status : Option TaskStatus
  dueDate : Option (Option Int)
deriving DecidableEq

/-- `createTaskSchema.parse`: requires valid title and description, keeps the
declared optional fields, and (being `z.object`) strips every other key —
in particular `projectId` and `assigneeId`. -/
def createTaskSchemaParse (raw : RawTaskBody) : Except HttpError CreateTaskInput :=
  match raw.title, raw.description with
  | some t, some d =>
      if validTitle t && validDescription d then
        .ok ⟨t, d, raw.status, raw.dueDate⟩
      else
        .error validationFailed
  | _, _ => .error validationFailed

/-- Output of `updateTaskSchema.parse`: every declared field optional. -/
structure UpdateTaskInput where
  title : Option String
  description : Option String
  status : Option TaskStatus
  dueDate : Option (Option Int)
deriving DecidableEq

/-- `updateTaskSchema.parse`: `baseTaskSchema.partial()` (all declared fields
optional, each validated when present, unknown keys stripped) followed by
`.refine(payload => Object.keys(payload).length > 0)` — the refinement sees
the stripped payload, so a body whose only keys are unknown ones fails it. -/
def updateTaskSchemaParse (raw : RawTaskBody) : Except HttpError UpdateTaskInput :=
  if optFieldValid raw.title validTitle && optFieldValid raw.description validDescription then
    if raw.title.isNone && raw.description.isNone && raw.status.isNone && raw.dueDate.isNone then
      .error validationFailed
    else
      .ok ⟨raw.title, raw.description, raw.status, raw.dueDate⟩
  else
    .error validationFailed

/-- `sort: z.enum(['newest', 'oldest', 'title'])`. -/
inductive SortOption where
  | newest
  | oldest
  | title
deriving DecidableEq

/-- A raw query string for `GET /tasks` as `listTasksQuerySchema` sees it;
`projectId` is a key the schema does not declare, so it is stripped. -/
structure RawListQuery where
  status : Option TaskStatus
  search : Option String
  sort : Option SortOption
  projectId : Option Nat
deriving DecidableEq

/-- Output of `listTasksQuerySchema.parse`: optional status and search, sort
defaulted to `newest`. -/
structure ListTasksQuery where
  status : Option TaskStatus
  search : Option String
  sort : SortOption
deriving DecidableEq

/-- `listTasksQuerySchema.parse`: keeps status/search/sort (defaulting sort to
`'newest'`) and strips every undeclared key, `projectId` included. -/
def listTasksQueryParse (raw : RawListQuery) : ListTasksQuery :=
  ⟨raw.status, raw.search, raw.sort.getD SortOption.newest⟩

/-! ## task.controller.ts -/

/-- Case-insensitive substring test over character lists, the semantics of SQL
`ILIKE '%pattern%'` for a pattern containing no wildcard characters. -/
def charsContain (pat : List Char) : List Char → Bool
  | [] => pat.isEmpty
  | c :: rest => pat.isPrefixOf (c :: rest) || charsContain pat rest

/-- `column ILIKE '%pattern%'`. -/
def ilikeContains (text pattern : String) : Bool :=
  charsContain (pattern.data.map Char.toLower) (text.data.map Char.toLower)

/-- The `status = $n` clause `listTasks` appends when `query.status` is set. -/
def statusClauseMatches (status : Option TaskStatus) (t : Task) : Bool :=
  match status with
  | some s => t.status == s
  | none => true

/-- The `(title ILIKE $i OR description ILIKE $j)` clause `listTasks` appends
when `query.search` is present and non-blank after trimming. -/
def searchClauseMatches (search : Option String) (t : Task) : Bool :=
  match search with
  | some s =>
      if 0 < s.trim.length then
        ilikeContains t.title s.trim || ilikeContains t.description s.trim
      else
        true
  | none => true

/-- The full WHERE clause of `listTasks`: `user_id = $1` (SQL `NULL = x` is
not true, hence the `some`) plus the optional status and search clauses. -/
def taskRowMatches (uid : Nat) (q : ListTasksQuery) (t : Task) : Bool :=
  (t.userId == some uid) && statusClauseMatches q.status t && searchClauseMatches q.search t

/-- `buildOrderBy` as a comparison: `'oldest' → created_at ASC`,
`'title' → title ASC`, default `created_at DESC`. -/
def taskOrder (sort : SortOption) (a b : Task) : Bool :=
  match sort with
  | .oldest => decide (a.createdAt ≤ b.createdAt)
  | .title => decide (a.title ≤ b.title)
  | .newest => decide (b.createdAt ≤ a.createdAt)

/-- `listTasks` (task.controller.ts lines 46-83): SELECT with the WHERE clause
above and the ORDER BY from `buildOrderBy`; visibility is solely
`user_id = $1`. -/
def listTasks (st : DBState) (uid : Nat) (q : ListTasksQuery) : List Task :=
  (st.tasks.filter (taskRowMatches uid q)).mergeSort (taskOrder q.sort)

/-- `createTask` (task.controller.ts lines 100-121): INSERT of
`(title, description, status ?? 'TODO', user_id, due_date)`.  Columns the
INSERT does not name keep their defaults: `project_id`, `assignee_id`,
`completed_at`, `reminder_sent_at` are NULL.  `payload.dueDate ? new
Date(payload.dueDate) : null` sends NULL for an absent or null dueDate.
`newId`/`now` stand for the row id and NOW() the database generates. -/
def createTask (st : DBState) (uid : Nat) (input : CreateTaskInput)
    (newId : Nat) (now : Int) : DBState × Task :=
  let t : Task :=
    { id := newId
      title := input.title
      description := input.description
      status := input.status.getD TaskStatus.TODO
      userId := some uid
      projectId := none
      assigneeId := none
      dueDate := input.dueDate.getD none
      completedAt := none
      reminderSentAt := none
      createdAt := now
      updatedAt := now }
  ({ st with tasks := st.tasks ++ [t] }, t)

/-- The row filter of `updateTask`'s UPDATE: `WHERE id = $i AND user_id = $u`. -/
def updateRowMatches (taskId uid : Nat) (t : Task) : Bool :=
  t.id == taskId && t.userId == some uid

/-- The SET clause of `updateTask`: each field present in the parsed payload,
plus `updated_at = NOW()`.  No other column is touched. -/
def applyUpdate (p : UpdateTaskInput) (now : Int) (t : Task) : Task :=
  let t1 := match p.title with
    | some v => { t with title := v }
    | none => t
  let t2 := match p.description with
    | some v => { t1 with description := v }
    | none => t1
  let t3 := match p.status with
    | some v => { t2 with status := v }
    | none => t2
  let t4 := match p.dueDate with
    | some v => { t3 with dueDate := v }
    | none => t3
  { t4 with updatedAt := now }

/-- `hasUpdateFields p = true` iff the controller's `fields` array is
non-empty. -/
def hasUpdateFields (p : UpdateTaskInput) : Bool :=
  p.title.isSome || p.description.isSome || p.status.isSome || p.dueDate.isSome

/-- `updateTask` (task.controller.ts lines 123-175): 400 when no field is
present; otherwise UPDATE ... WHERE id AND user_id RETURNING, then 404 when
no row matched.  The returned state is the database after the UPDATE ran
(which changes nothing when no row matches). -/
def updateTask (st : DBState) (uid taskId : Nat) (p : UpdateTaskInput)
    (now : Int) : DBState × Except HttpError Task :=
  if hasUpdateFields p then
    let st' : DBState :=
      { st with
        tasks := st.tasks.map fun u =>
          if updateRowMatches taskId uid u then applyUpdate p now u else u }
    match st.tasks.find? (updateRowMatches taskId uid) with
    | some t => (st', .ok (applyUpdate p now t))
    | none => (st', .error ⟨404, "Task not found"⟩)
  else
    (st, .error ⟨400, "Provide at least one field to update"⟩)

/-! ## projectAccess.ts -/

inductive ProjectRole where
  | owner
  | member
deriving DecidableEq

/-- `normalizeRole` from projectAccess.ts:
`(role: string | null) => (role === 'owner' ? 'owner' : 'member')`. -/
def normalizeRole (role : Option String) : ProjectRole :=
  if role = some "owner" then ProjectRole.owner else ProjectRole.member

/-- `normalizeRole` from project.controller.ts:
`(value: string) => (value === 'owner' ? 'owner' : 'member')`. -/
def normalizeRoleStr (value : String) : ProjectRole :=
  if value = "owner" then ProjectRole.owner else ProjectRole.member

/-- `SELECT id FROM projects WHERE id = $1 LIMIT 1` as a Bool. -/
def projectExists (st : DBState) (pid : Nat) : Bool :=
  st.projects.any fun p => p.id == pid

/-- `ensureProjectExists`: 404 when no project row has the id. -/
def ensureProjectExists (st : DBState) (pid : Nat) : Except HttpError Unit :=
  if projectExists st pid then .ok () else .error ⟨404, "Project not found"⟩

/-- The raw row `findProjectMembership` reads:
`SELECT ... FROM project_members WHERE project_id = $1 AND user_id = $2 LIMIT 1`. -/
def findMembershipRow (st : DBState) (pid uid : Nat) : Option ProjectMemberRow :=
  st.projectMembers.find? fun m => m.projectId == pid && m.userId == uid

/-- The in-memory membership `findProjectMembership` returns, with the role
normalized. -/
structure ProjectMembership where
  id : Nat
  projectId : Nat
  userId : Nat
  role : ProjectRole
deriving DecidableEq

/-- `findProjectMembership`: the raw row, role run through `normalizeRole`. -/
def findProjectMembership (st : DBState) (pid uid : Nat) : Option ProjectMembership :=
  (findMembershipRow st pid uid).map fun r =>
    ⟨r.id, r.projectId, r.userId, normalizeRole (some r.role)⟩

/-- `requireProjectMember`: 404 when the project is absent, 403 when the
caller has no membership row. -/
def requireProjectMember (st : DBState) (pid uid : Nat) :
    Except HttpError ProjectMembership :=
  match ensureProjectExists st pid with
  | .error e => .error e
  | .ok _ =>
      match findProjectMembership st pid uid with
      | some m => .ok m
      | none => .error ⟨403, "You do not have access to this project"⟩

/-- `requireProjectOwner` (projectAccess.ts lines 121-127): membership plus
403 when the normalized role is not `owner`. -/
def requireProjectOwner (st : DBState) (pid uid : Nat) :
    Except HttpError ProjectMembership :=
  match requireProjectMember st pid uid with
  | .error e => .error e
  | .ok m =>
      if m.role = ProjectRole.owner then .ok m
      else .error ⟨403, "Only the project owner can perform this action"⟩

/-- `createPersonalProject` (projectAccess.ts lines 129-154): a transaction
inserting a `'Personal Workspace'` project and an `'owner'` membership row
for the user; returns the new project id. -/
def createPersonalProject (st : DBState) (uid : Nat) (newProjectId newMemberId : Nat)
    (now : Int) : DBState × Nat :=
  let projectRow : Project :=
    ⟨newProjectId, "Personal Workspace", some "Auto-created to organize your tasks",
      uid, now, now⟩
  let conflict := st.projectMembers.any fun m =>
    m.projectId == newProjectId && m.userId == uid
  let members' :=
    if conflict then st.projectMembers
    else st.projectMembers ++ [⟨newMemberId, newProjectId, uid, "owner", now⟩]
  ({ st with projects := st.projects ++ [projectRow], projectMembers := members' },
   newProjectId)

/-- The UPDATE at the end of `ensureProjectBaselineForUser`:
`UPDATE tasks SET project_id = $anchor WHERE user_id = $uid AND project_id IS NULL`. -/
def attachOwnerlessTasks (st : DBState) (uid anchor : Nat) : DBState :=
  { st with
    tasks := st.tasks.map fun t =>
      if t.userId == some uid && t.projectId == none then
        { t with projectId := some anchor }
      else t }

/-- `ensureProjectBaselineForUser` (projectAccess.ts lines 156-176): the
user's earliest membership's project is the anchor (`ORDER BY created_at ASC
LIMIT 1`; rows are in creation order), created via `createPersonalProject`
when the user has none; then the user's project-less tasks are attached to
the anchor. -/
def ensureProjectBaselineForUser (st : DBState) (uid : Nat)
    (newProjectId newMemberId : Nat) (now : Int) : DBState × Nat :=
  match st.projectMembers.find? (fun m => m.userId == uid) with
  | some m => (attachOwnerlessTasks st uid m.projectId, m.projectId)
  | none =>
      let created := createPersonalProject st uid newProjectId newMemberId now
      (attachOwnerlessTasks created.1 uid created.2, created.2)

/-! ## project.controller.ts -/

/-- Output of `createProjectSchema.parse` (name required, description
optional). -/
structure CreateProjectInput where
  name : String
  description : Option String
deriving DecidableEq

/-- `createProject` (project.controller.ts lines 420-453): a
BEGIN/COMMIT transaction inserting the project row and then an `'owner'`
membership row (`ON CONFLICT (project_id, user_id) DO NOTHING`); on any
failure the catch block issues ROLLBACK and rethrows, so the original state
is returned.  `memberInsertFails` injects a failure occurring after the
project insert and before the membership insert commits. -/
def createProject (st : DBState) (uid : Nat) (input : CreateProjectInput)
    (newProjectId newMemberId : Nat) (now : Int) (memberInsertFails : Bool) :
    DBState × Except HttpError Project :=
  let projectRow : Project :=
    ⟨newProjectId, input.name.trim, input.description.map String.trim, uid, now, now⟩
  let afterProjectInsert : DBState :=
    { st with projects := st.projects ++ [projectRow] }
  if memberInsertFails then
    (st, .error ⟨500, "Internal server error"⟩)
  else
    let conflict := afterProjectInsert.projectMembers.any fun m =>
      m.projectId == newProjectId && m.userId == uid
    let members' :=
      if conflict then afterProjectInsert.projectMembers
      else afterProjectInsert.projectMembers ++ [⟨newMemberId, newProjectId, uid, "owner", now⟩]
    ({ afterProjectInsert with projectMembers := members' }, .ok projectRow)

/-- `SELECT COUNT(1) FROM tasks WHERE project_id = $1 AND assignee_id = $2
AND status != 'DONE'` from `removeProjectMember`. -/
def countOpenAssignments (st : DBState) (pid memberId : Nat) : Nat :=
  (st.tasks.filter fun t =>
    t.projectId == some pid && t.assigneeId == some memberId
      && !(t.status == TaskStatus.DONE)).length

/-- `removeProjectMember` (project.controller.ts lines 517-550): owner gate,
self-removal guard (400), target-membership lookup (404), open-assignment
guard (409), then DELETE of the membership row. -/
def removeProjectMember (st : DBState) (pid memberId uid : Nat) :
    DBState × Except HttpError Unit :=
  match requireProjectOwner st pid uid with
  | .error e => (st, .error e)
  | .ok membership =>
      if memberId == membership.userId then
        (st, .error ⟨400, "Owners cannot remove themselves"⟩)
      else
        match findMembershipRow st pid memberId with
        | none => (st, .error ⟨404, "Member not found in this project"⟩)
        | some _ =>
            if 0 < countOpenAssignments st pid memberId then
              (st, .error ⟨409, "Reassign open tasks before removing them"⟩)
            else
              ({ st with
                  projectMembers := st.projectMembers.filter fun m =>
                    !(m.projectId == pid && m.userId == memberId) },
               .ok ())

/-- `listProjects` (project.controller.ts lines 400-418): runs
`ensureProjectBaselineForUser` first, then selects the caller's memberships
joined to their projects. -/
def listProjects (st : DBState) (uid : Nat) (newProjectId newMemberId : Nat)
    (now : Int) : DBState × List Project :=
  let res := ensureProjectBaselineForUser st uid newProjectId newMemberId now
  let st' := res.1
  (st',
   ((st'.projectMembers.filter fun m => m.userId == uid).filterMap fun m =>
      st'.projects.find? fun p => p.id == m.projectId).mergeSort
     (fun a b => decide (b.createdAt ≤ a.createdAt)))

/-! ## Reminder sweep (taskReminderScheduler, appended to app.ts) -/

def LOOKAHEAD_MS : Int := 12 * 60 * 60 * 1000

def WINDOW_MS : Int := 60 * 60 * 1000

/-- The WHERE clause (plus the two INNER JOINs) of `REMINDER_QUERY`:
`assignee_id IS NOT NULL`, an existing assignee user row, an existing
project row (`INNER JOIN projects p ON p.id = t.project_id`), `due_date IS
NOT NULL`, `reminder_sent_at IS NULL`, `completed_at IS NULL`,
`status <> 'DONE'`, and `due_date BETWEEN $1 AND $2` — SQL BETWEEN is
inclusive at both ends. -/
def reminderRowSelected (st : DBState) (windowStart windowEnd : Int) (t : Task) : Bool :=
  (match t.assigneeId with
   | some aid => st.users.any fun u => u.id == aid
   | none => false)
  && (match t.projectId with
      | some pid => st.projects.any fun p => p.id == pid
      | none => false)
  && (match t.dueDate with
      | some due =>
          t.reminderSentAt.isNone && t.completedAt.isNone
            && !(t.status == TaskStatus.DONE)
            && decide (windowStart ≤ due) && decide (due ≤ windowEnd)
      | none => false)

/-- The candidate rows of `REMINDER_QUERY` at a given window. -/
def reminderQuery (st : DBState) (windowStart windowEnd : Int) : List Task :=
  st.tasks.filter (reminderRowSelected st windowStart windowEnd)

/-- The selection a single `runTaskReminderSweep` pass makes:
`windowStart = now + LOOKAHEAD_MS`, `windowEnd = now + LOOKAHEAD_MS + WINDOW_MS`. -/
def runTaskReminderSweepSelection (st : DBState) (now : Int) : List Task :=
  reminderQuery st (now + LOOKAHEAD_MS) (now + LOOKAHEAD_MS + WINDOW_MS)

/-- The sweep-selection predicate exactly as the specification phrases it,
with a HALF-OPEN acceptance window `[now + 12h, now + 13h)`.  Kept separate
from `reminderRowSelected` (translated from the source query) so the two can
be compared: the source's `BETWEEN` makes the window closed at both ends. -/
def specClaimedReminderSelect (now : Int) (t : Task) : Bool :=
  t.assigneeId.isSome && t.dueDate.isSome && t.reminderSentAt.isNone
    && t.completedAt.isNone && !(t.status == TaskStatus.DONE)
    && (match t.dueDate with
        | some due =>
            decide (now + LOOKAHEAD_MS ≤ due) && decide (due < now + LOOKAHEAD_MS + WINDOW_MS)
        | none => false)

/-! ## Concrete states used by counterexamples and witnesses -/

def emptyDB : DBState := ⟨[], [], [], []⟩

def demoUsers : List User := [⟨10, "owner at example.com", none⟩, ⟨20, "member at example.com", none⟩]

def demoProject : Project := ⟨1, "Team Atlas", none, 10, 0, 0⟩

def demoOwnerRow : ProjectMemberRow := ⟨1, 1, 10, "owner", 0⟩

def demoMemberRow : ProjectMemberRow := ⟨2, 1, 20, "member", 0⟩

/-- A create payload whose initial status is DONE. -/
def doneCreateInput : CreateTaskInput := ⟨"Ship the release", "Final cut", some TaskStatus.DONE, none⟩

/-- A task created by the non-owner member (user 20) of project 1. -/
def memberTask : Task :=
  ⟨5, "Ship the milestone", "Finish and ship", TaskStatus.TODO, some 20, some 1,
    none, none, none, none, 0, 0⟩

def memberTaskDB : DBState :=
  ⟨demoUsers, [demoProject], [demoOwnerRow, demoMemberRow], [memberTask]⟩

/-- A patch whose only field sets status to DONE. -/
def doneOnlyPatch : UpdateTaskInput := ⟨none, none, some TaskStatus.DONE, none⟩

/-- A task created by user 10 in project 1, assigned to user 20. -/
def ownerTask : Task :=
  ⟨6, "Quarterly report", "Collect the numbers", TaskStatus.TODO, some 10, some 1,
    some 20, none, none, none, 0, 0⟩

def sharedVisibilityDB : DBState :=
  ⟨demoUsers, [demoProject], [demoOwnerRow, demoMemberRow], [ownerTask]⟩

def defaultListQuery : ListTasksQuery := ⟨none, none, SortOption.newest⟩

/-- A task that already received its reminder (`reminder_sent_at = 100`). -/
def remindedTask : Task :=
  ⟨7, "Email follow-up", "Send the recap", TaskStatus.TODO, some 10, some 1,
    none, some 1000, none, some 100, 0, 0⟩

def remindedDB : DBState := ⟨demoUsers, [demoProject], [demoOwnerRow], [remindedTask]⟩

/-- A patch that changes only the due date. -/
def dueDatePatch : UpdateTaskInput := ⟨none, none, none, some (some 2000)⟩

/-- A task sitting in project 1. -/
def movableTask : Task :=
  ⟨8, "Board cleanup", "Tidy the columns", TaskStatus.TODO, some 10, some 1,
    none, none, none, none, 0, 0⟩

def movableDB : DBState := ⟨demoUsers, [demoProject], [demoOwnerRow], [movableTask]⟩

/-- A raw PATCH body that renames the task and tries to move it to project 2. -/
def projectMoveRaw : RawTaskBody :=
  ⟨some "Renamed milestone", none, none, none, some 2, none⟩

/-- A task due exactly at `now + 13h` for `now = 0`:
`46800000 = LOOKAHEAD_MS + WINDOW_MS`. -/
def windowEdgeTask : Task :=
  ⟨9, "Window edge", "Due at the boundary", TaskStatus.TODO, some 10, some 1,
    some 20, some 46800000, none, none, 0, 0⟩

def windowEdgeDB : DBState :=
  ⟨demoUsers, [demoProject], [demoOwnerRow, demoMemberRow], [windowEdgeTask]⟩

/-- An open (non-DONE) task in project 1 assigned to member 20. -/
def assignedTask : Task :=
  ⟨11, "Open item", "Still active", TaskStatus.IN_PROGRESS, some 10, some 1,
    some 20, none, none, none, 0, 0⟩

def removalDB : DBState :=
  ⟨demoUsers, [demoProject], [demoOwnerRow, demoMemberRow], [assignedTask]⟩

/-- A pre-project task of user 30 with no project. -/
def orphanTask : Task :=
  ⟨12, "Legacy item", "Created before projects", TaskStatus.TODO, some 30, none,
    none, none, none, none, 0, 0⟩

def orphanDB : DBState := ⟨[⟨30, "solo at example.com", none⟩], [], [], [orphanTask]⟩

/-- A membership row whose stored role is neither `owner` nor `member`. -/
def weirdRoleRow : ProjectMemberRow := ⟨3, 1, 30, "admin", 0⟩

def weirdRoleDB : DBState :=
  ⟨[⟨30, "admin at example.com", none⟩], [demoProject], [weirdRoleRow], []⟩

/-! ## Helper lemmas about `applyUpdate` and `updateTask` -/

theorem applyUpdate_completedAt (p : UpdateTaskInput) (now : Int) (t : Task) :
    (applyUpdate p now t).completedAt = t.completedAt := by
  unfold applyUpdate
  cases p.title <;> cases p.description <;> cases p.status <;> cases p.dueDate <;> rfl

theorem applyUpdate_reminderSentAt (p : UpdateTaskInput) (now : Int) (t : Task) :
    (applyUpdate p now t).reminderSentAt = t.reminderSentAt := by
  unfold applyUpdate
  cases p.title <;> cases p.description <;> cases p.status <;> cases p.dueDate <;> rfl

theorem applyUpdate_projectId (p : UpdateTaskInput) (now : Int) (t : Task) :
    (applyUpdate p now t).projectId = t.projectId := by
  unfold applyUpdate
  cases p.title <;> cases p.description <;> cases p.status <;> cases p.dueDate <;> rfl

theorem applyUpdate_assigneeId (p : UpdateTaskInput) (now : Int) (t : Task) :
    (applyUpdate p now t).assigneeId = t.assigneeId := by
  unfold applyUpdate
  cases p.title <;> cases p.description <;> cases p.status <;> cases p.dueDate <;> rfl

theorem applyUpdate_status_of_some (p : UpdateTaskInput) (now : Int) (t : Task)
    (s : TaskStatus) (h : p.status = some s) : (applyUpdate p now t).status = s := by
  unfold applyUpdate
  cases p.title <;> cases p.description <;> cases p.dueDate <;> simp only [h]

/-- The database `updateTask` returns: the UPDATE applied when some field is
present, the untouched database otherwise. -/
theorem updateTask_fst (st : DBState) (uid taskId : Nat) (p : UpdateTaskInput) (now : Int) :
    (updateTask st uid taskId p now).1 =
      if hasUpdateFields p then
        { st with
          tasks := st.tasks.map fun u =>
            if updateRowMatches taskId uid u then applyUpdate p now u else u }
      else st := by
  unfold updateTask
  split
  · cases st.tasks.find? (updateRowMatches taskId uid) <;> rfl
  · rfl

/-- Any per-task observation invariant under `applyUpdate` is invariant under
the whole UPDATE. -/
theorem updateTask_tasks_map_eq {α : Type} (f : Task → α)
    (st : DBState) (uid taskId : Nat) (p : UpdateTaskInput) (now : Int)
    (hf : ∀ t, f (applyUpdate p now t) = f t) :
    (updateTask st uid taskId p now).1.tasks.map f = st.tasks.map f := by
  rw [updateTask_fst]
  split
  · show (st.tasks.map _).map f = st.tasks.map f
    rw [List.map_map]
    refine List.map_congr_left fun a _ => ?_
    show f (if updateRowMatches taskId uid a then applyUpdate p now a else a) = f a
    split
    · exact hf a
    · rfl
  · rfl

/-- The task `updateTask` returns on success is the found row with the patch
applied. -/
theorem updateTask_ok_iff (st : DBState) (uid taskId : Nat) (p : UpdateTaskInput)
    (now : Int) (t0 : Task) :
    (updateTask st uid taskId p now).2 = .ok t0 ↔
      hasUpdateFields p = true
      ∧ ∃ t1, st.tasks.find? (updateRowMatches taskId uid) = some t1
          ∧ t0 = applyUpdate p now t1 := by
  unfold updateTask
  split
  · rename_i hfields
    cases hfind : st.tasks.find? (updateRowMatches taskId uid) with
    | some t1 => simp [hfields, eq_comm]
    | none => simp
  · rename_i hfields
    simp only [Bool.not_eq_true] at hfields
    simp [hfields]

/-- The UPDATE misses every row and `updateTask` answers 404 with the
database untouched. -/
theorem updateTask_notFound (st : DBState) (uid taskId : Nat) (p : UpdateTaskInput)
    (now : Int) (hfields : hasUpdateFields p = true)
    (hfind : st.tasks.find? (updateRowMatches taskId uid) = none) :
    (updateTask st uid taskId p now).1 = st
    ∧ (updateTask st uid taskId p now).2 = .error ⟨404, "Task not found"⟩ := by
  have hnone := List.find?_eq_none.mp hfind
  constructor
  · rw [updateTask_fst, if_pos hfields]
    have hmap : (st.tasks.map fun u =>
        if updateRowMatches taskId uid u then applyUpdate p now u else u) = st.tasks := by
      conv_rhs => rw [← List.map_id st.tasks]
      refine List.map_congr_left fun a ha => ?_
      rw [if_neg]
      · rfl
      · simp [hnone a ha]
    rw [hmap]
  · unfold updateTask
    rw [if_pos hfields, hfind]

/-! ## C1 -/

/-- C1 counterexample: `createTask` with initial status DONE leaves
`completedAt` null, so the claimed invariant
`completedAt != null iff status == DONE` is already false right after the
create operation. -/
theorem completedAt_invariant_cex :
    (createTask emptyDB 1 doneCreateInput 1 0).2.status = TaskStatus.DONE
    ∧ (createTask emptyDB 1 doneCreateInput 1 0).2.completedAt = none
    ∧ ¬ (((createTask emptyDB 1 doneCreateInput 1 0).2.completedAt ≠ none)
          ↔ ((createTask emptyDB 1 doneCreateInput 1 0).2.status = TaskStatus.DONE)) := by
  refine ⟨rfl, rfl, ?_⟩
  decide

/-- C1 amended: the task operations never write `completedAt` at all —
`createTask` always inserts it as null (even when the initial status is
DONE), `updateTask` leaves every stored task's `completedAt` unchanged, and
the task `updateTask` returns carries the found row's old `completedAt`. -/
theorem completedAt_never_written :
    (∀ st uid input newId now,
        (createTask st uid input newId now).2.completedAt = none)
    ∧ (∀ st uid taskId p now,
        (updateTask st uid taskId p now).1.tasks.map Task.completedAt
          = st.tasks.map Task.completedAt)
    ∧ (∀ st uid taskId p now t0, (updateTask st uid taskId p now).2 = .ok t0 →
        ∃ t1, st.tasks.find? (updateRowMatches taskId uid) = some t1
          ∧ t0.completedAt = t1.completedAt) := by
  refine ⟨fun _ _ _ _ _ => rfl, ?_, ?_⟩
  · intro st uid taskId p now
    exact updateTask_tasks_map_eq Task.completedAt st uid taskId p now
      (applyUpdate_completedAt p now)
  · intro st uid taskId p now t0 h
    obtain ⟨-, t1, hfind, rfl⟩ := (updateTask_ok_iff st uid taskId p now t0).mp h
    exact ⟨t1, hfind, applyUpdate_completedAt p now t1⟩

/-! ## C2 -/

/-- C2 counterexample: user 20 is a plain `member` (not an owner) of project
1, yet their update setting `status` to DONE on their own task succeeds and
the stored status becomes DONE — no Forbidden, no owner gate. -/
theorem owner_gate_cex :
    requireProjectOwner memberTaskDB 1 20
        = .error ⟨403, "Only the project owner can perform this action"⟩
    ∧ (updateTask memberTaskDB 20 5 doneOnlyPatch 7).2
        = .ok { memberTask with status := TaskStatus.DONE, updatedAt := 7 }
    ∧ (updateTask memberTaskDB 20 5 doneOnlyPatch 7).1.tasks.map Task.status
        = [TaskStatus.DONE] := by
  exact ⟨rfl, rfl, rfl⟩

/-- C2 amended: `updateTask` consults no project membership at all.  Its only
access condition is the row filter `user_id = caller`: when the patch sets
status to DONE, a caller who created the task succeeds (whatever their
project role) and the result's status is DONE, while any other caller gets
NotFound (404) with the database unchanged — never Forbidden. -/
theorem done_transition_has_no_owner_gate (st : DBState) (uid taskId : Nat)
    (p : UpdateTaskInput) (now : Int) (hstatus : p.status = some TaskStatus.DONE) :
    (∀ t1, st.tasks.find? (updateRowMatches taskId uid) = some t1 →
        (updateTask st uid taskId p now).2 = .ok (applyUpdate p now t1)
        ∧ (applyUpdate p now t1).status = TaskStatus.DONE)
    ∧ (st.tasks.find? (updateRowMatches taskId uid) = none →
        (updateTask st uid taskId p now).1 = st
        ∧ (updateTask st uid taskId p now).2 = .error ⟨404, "Task not found"⟩) := by
  have hfields : hasUpdateFields p = true := by
    simp [hasUpdateFields, hstatus]
  constructor
  · intro t1 hfind
    refine ⟨?_, applyUpdate_status_of_some p now t1 TaskStatus.DONE hstatus⟩
    exact (updateTask_ok_iff st uid taskId p now _).mpr ⟨hfields, t1, hfind, rfl⟩
  · intro hfind
    exact updateTask_notFound st uid taskId p now hfields hfind

/-- C2 amended, witness: the concrete member's DONE update from the
counterexample state goes through the amended theorem. -/
theorem done_transition_has_no_owner_gate_witness :
    (updateTask memberTaskDB 20 5 doneOnlyPatch 7).2
      = .ok (applyUpdate doneOnlyPatch 7 memberTask) := by
  exact ((done_transition_has_no_owner_gate memberTaskDB 20 5 doneOnlyPatch 7 rfl).1
    memberTask rfl).1

/-! ## C3 -/

theorem statusClauseMatches_iff (status : Option TaskStatus) (t : Task) :
    statusClauseMatches status t = true ↔
      (match status with | some s => t.status = s | none => True) := by
  cases status <;> simp [statusClauseMatches]

theorem searchClauseMatches_iff (search : Option String) (t : Task) :
    searchClauseMatches search t = true ↔
      (match search with
       | some s => 0 < s.trim.length →
           (ilikeContains t.title s.trim = true
             ∨ ilikeContains t.description s.trim = true)
       | none => True) := by
  cases search with
  | none => simp [searchClauseMatches]
  | some s =>
      by_cases h : 0 < s.trim.length <;> simp [searchClauseMatches, h]

/-- C3 counterexample: user 20 is a member of project 1 AND the assignee of
task 6, which they did not create; the task exists, yet `listTasks` for user
20 returns nothing — membership- and assignee-visibility do not exist. -/
theorem list_visibility_cex :
    (findProjectMembership sharedVisibilityDB 1 20).isSome = true
    ∧ ownerTask.assigneeId = some 20
    ∧ ownerTask ∈ sharedVisibilityDB.tasks
    ∧ listTasks sharedVisibilityDB 20 defaultListQuery = [] := by
  refine ⟨rfl, rfl, by decide, ?_⟩
  show (sharedVisibilityDB.tasks.filter _).mergeSort _ = []
  have hfilter :
      sharedVisibilityDB.tasks.filter (taskRowMatches 20 defaultListQuery) = [] := rfl
  rw [hfilter, List.mergeSort_nil]

/-- C3 amended: `listTasks` returns exactly the tasks whose `user_id` equals
the caller (creator-only visibility — assignees and project members see
nothing), narrowed by the optional status filter and the case-insensitive
substring search over title and description; the query schema has no
`projectId` key at all (it is stripped before the handler runs). -/
theorem listTasks_characterization :
    (∀ st uid q t,
      t ∈ listTasks st uid q ↔
        t ∈ st.tasks ∧ t.userId = some uid
        ∧ (match q.status with | some s => t.status = s | none => True)
        ∧ (match q.search with
           | some s => 0 < s.trim.length →
               (ilikeContains t.title s.trim = true
                 ∨ ilikeContains t.description s.trim = true)
           | none => True))
    ∧ (∀ raw pid, listTasksQueryParse { raw with projectId := pid }
        = listTasksQueryParse raw) := by
  constructor
  · intro st uid q t
    rw [listTasks, List.mem_mergeSort, List.mem_filter]
    refine and_congr_right fun _ => ?_
    rw [taskRowMatches]
    simp only [Bool.and_eq_true, beq_iff_eq, statusClauseMatches_iff,
      searchClauseMatches_iff, and_assoc]
  · intro raw pid
    rfl

/-! ## C4 -/

/-- C4 counterexample: task 7 carries `reminderSentAt = 100`; an update that
changes its due date succeeds, and the stored `reminderSentAt` is still 100
afterwards — it is not cleared. -/
theorem reminder_clear_cex :
    remindedTask.reminderSentAt = some 100
    ∧ (updateTask remindedDB 10 7 dueDatePatch 5).2
        = .ok { remindedTask with dueDate := some 2000, updatedAt := 5 }
    ∧ (updateTask remindedDB 10 7 dueDatePatch 5).1.tasks.map Task.reminderSentAt
        = [some 100] := by
  exact ⟨rfl, rfl, rfl⟩

/-- C4 amended: `updateTask` never touches `reminderSentAt` — no patch
(due-date changes included) clears it, and `assigneeId` is not even an
updatable field: the update schema strips it from the body.  A task
therefore never regains reminder eligibility through an edit. -/
theorem reminderSentAt_never_cleared :
    (∀ raw aid, updateTaskSchemaParse { raw with assigneeId := aid }
        = updateTaskSchemaParse raw)
    ∧ (∀ st uid taskId p now,
        (updateTask st uid taskId p now).1.tasks.map Task.reminderSentAt
          = st.tasks.map Task.reminderSentAt)
    ∧ (∀ st uid taskId p now t0, (updateTask st uid taskId p now).2 = .ok t0 →
        ∃ t1, st.tasks.find? (updateRowMatches taskId uid) = some t1
          ∧ t0.reminderSentAt = t1.reminderSentAt) := by
  refine ⟨fun _ _ => rfl, ?_, ?_⟩
  · intro st uid taskId p now
    exact updateTask_tasks_map_eq Task.reminderSentAt st uid taskId p now
      (applyUpdate_reminderSentAt p now)
  · intro st uid taskId p now t0 h
    obtain ⟨-, t1, hfind, rfl⟩ := (updateTask_ok_iff st uid taskId p now t0).mp h
    exact ⟨t1, hfind, applyUpdate_reminderSentAt p now t1⟩

/-! ## C5 -/

/-- C5 counterexample: a PATCH body that renames task 8 and asks to move it
to project 2 does NOT fail: the schema silently strips `projectId`, the
update succeeds (200, not BadRequest), and the task stays in project 1. -/
theorem project_move_cex :
    movableTask.projectId = some 1
    ∧ updateTaskSchemaParse projectMoveRaw
        = .ok ⟨some "Renamed milestone", none, none, none⟩
    ∧ (updateTask movableDB 10 8 ⟨some "Renamed milestone", none, none, none⟩ 3).2
        = .ok { movableTask with title := "Renamed milestone", updatedAt := 3 }
    ∧ (updateTask movableDB 10 8 ⟨some "Renamed milestone", none, none, none⟩ 3).1.tasks.map
        Task.projectId = [some 1] := by
  exact ⟨rfl, rfl, rfl, rfl⟩

/-- C5 amended: `projectId` is not an updatable field.  The update schema
strips it from any body; a body carrying nothing but `projectId` fails with
400 (the stripped patch has zero fields); and no successful update ever
changes any stored task's `projectId`. -/
theorem projectId_not_updatable :
    (∀ raw pid, updateTaskSchemaParse { raw with projectId := pid }
        = updateTaskSchemaParse raw)
    ∧ (∀ pid, updateTaskSchemaParse ⟨none, none, none, none, pid, none⟩
        = .error validationFailed)
    ∧ (∀ st uid taskId p now,
        (updateTask st uid taskId p now).1.tasks.map Task.projectId
          = st.tasks.map Task.projectId) := by
  refine ⟨fun _ _ => rfl, fun _ => rfl, ?_⟩
  intro st uid taskId p now
  exact updateTask_tasks_map_eq Task.projectId st uid taskId p now
    (applyUpdate_projectId p now)

/-! ## C6 -/

/-- C6 counterexample: a task due exactly at `now + 13h` IS selected by the
sweep pass (SQL `BETWEEN` is inclusive at both ends), while the claimed
half-open window `[now + 12h, now + 13h)` says it must not be. -/
theorem reminder_window_cex :
    windowEdgeTask.dueDate = some (0 + LOOKAHEAD_MS + WINDOW_MS)
    ∧ windowEdgeTask ∈ runTaskReminderSweepSelection windowEdgeDB 0
    ∧ specClaimedReminderSelect 0 windowEdgeTask = false := by
  refine ⟨by decide, by decide, by decide⟩

/-- C6 amended: a sweep pass selects exactly the tasks with an assignee (that
exists in `users`), a project (that exists in `projects` — the query's INNER
JOIN), a due date, null `reminderSentAt`, null `completedAt`, status other
than DONE, and a due date in the CLOSED window
`[now + 12h, now + 13h]`: the endpoint `now + 13h` is included. -/
theorem reminder_selection_characterization : ∀ st now t,
    t ∈ runTaskReminderSweepSelection st now ↔
      t ∈ st.tasks
      ∧ (∃ aid, t.assigneeId = some aid ∧ ∃ u ∈ st.users, u.id = aid)
      ∧ (∃ pid, t.projectId = some pid ∧ ∃ pr ∈ st.projects, pr.id = pid)
      ∧ (∃ due, t.dueDate = some due
          ∧ t.reminderSentAt = none ∧ t.completedAt = none
          ∧ t.status ≠ TaskStatus.DONE
          ∧ now + LOOKAHEAD_MS ≤ due ∧ due ≤ now + LOOKAHEAD_MS + WINDOW_MS) := by
  intro st now t
  rw [runTaskReminderSweepSelection, reminderQuery, List.mem_filter]
  refine and_congr_right fun _ => ?_
  rw [reminderRowSelected]
  cases hA : t.assigneeId with
  | none => simp
  | some aid =>
    cases hP : t.projectId with
    | none => simp
    | some pid =>
      cases hD : t.dueDate with
      | none => simp
      | some due =>
        simp [List.any_eq_true, beq_iff_eq, Option.isNone_iff_eq_none,
          Bool.not_eq_true', beq_eq_false_iff_ne, decide_eq_true_iff, and_assoc]

/-! ## C7 -/

/-- C7: `createProject` is atomic.  With a failure injected between the
project insert and the membership insert, the transaction rolls back: the
returned state is the original one and no project row with the new id
survives.  Without the failure, both the project row and the creator's
`owner` membership row are committed. -/
theorem createProject_bootstrap_atomic (st : DBState) (uid : Nat)
    (input : CreateProjectInput) (npid nmid : Nat) (now : Int)
    (memberInsertFails : Bool)
    (hfreshP : ∀ pr ∈ st.projects, pr.id ≠ npid)
    (hfreshM : ∀ m ∈ st.projectMembers, m.projectId ≠ npid) :
    (memberInsertFails = true →
       (createProject st uid input npid nmid now memberInsertFails).1 = st
       ∧ (createProject st uid input npid nmid now memberInsertFails).2
           = .error ⟨500, "Internal server error"⟩
       ∧ ∀ pr ∈ (createProject st uid input npid nmid now memberInsertFails).1.projects,
           pr.id ≠ npid)
    ∧ (memberInsertFails = false →
       (∃ pr ∈ (createProject st uid input npid nmid now memberInsertFails).1.projects,
          pr.id = npid ∧ pr.ownerId = uid)
       ∧ (∃ m ∈ (createProject st uid input npid nmid now memberInsertFails).1.projectMembers,
          m.projectId = npid ∧ m.userId = uid ∧ m.role = "owner")) := by
  cases memberInsertFails with
  | true =>
      refine ⟨fun _ => ⟨rfl, rfl, hfreshP⟩, fun h => Bool.noConfusion h⟩
  | false =>
      refine ⟨fun h => Bool.noConfusion h, fun _ => ?_⟩
      have hconf :
          (st.projectMembers.any fun m => m.projectId == npid && m.userId == uid)
            = false := by
        rw [List.any_eq_false]
        intro m hm
        simp [hfreshM m hm]
      constructor
      · refine ⟨⟨npid, input.name.trim, input.description.map String.trim, uid, now, now⟩,
          ?_, rfl, rfl⟩
        exact List.mem_append_right st.projects (List.mem_singleton_self _)
      · refine ⟨⟨nmid, npid, uid, "owner", now⟩, ?_, rfl, rfl, rfl⟩
        show _ ∈ (createProject st uid input npid nmid now false).1.projectMembers
        have hmembers :
            (createProject st uid input npid nmid now false).1.projectMembers
              = st.projectMembers ++ [⟨nmid, npid, uid, "owner", now⟩] := by
          show (if (st.projectMembers.any fun m => m.projectId == npid && m.userId == uid)
                then st.projectMembers
                else st.projectMembers ++ [⟨nmid, npid, uid, "owner", now⟩]) = _
          rw [hconf]
          rfl
        rw [hmembers]
        exact List.mem_append_right st.projectMembers (List.mem_singleton_self _)

/-- C7 witness: the injected failure on an empty database rolls everything
back. -/
theorem createProject_bootstrap_atomic_witness :
    (createProject emptyDB 7 ⟨"Apollo", none⟩ 1 1 0 true).1 = emptyDB := by
  have h := createProject_bootstrap_atomic emptyDB 7 ⟨"Apollo", none⟩ 1 1 0 true
    (fun pr hpr => absurd hpr (List.not_mem_nil pr))
    (fun m hm => absurd hm (List.not_mem_nil m))
  exact (h.1 rfl).1

/-! ## C8 -/

theorem requireProjectOwner_of_owner_row (st : DBState) (pid uid : Nat)
    (row : ProjectMemberRow) (hproj : projectExists st pid = true)
    (hfind : findMembershipRow st pid uid = some row) (hrole : row.role = "owner") :
    requireProjectOwner st pid uid
      = .ok ⟨row.id, row.projectId, row.userId, ProjectRole.owner⟩ := by
  unfold requireProjectOwner requireProjectMember ensureProjectExists findProjectMembership
  simp [hproj, hfind, normalizeRole, hrole]

theorem requireProjectOwner_of_other_row (st : DBState) (pid uid : Nat)
    (row : ProjectMemberRow) (hproj : projectExists st pid = true)
    (hfind : findMembershipRow st pid uid = some row) (hrole : row.role ≠ "owner") :
    requireProjectOwner st pid uid
      = .error ⟨403, "Only the project owner can perform this action"⟩ := by
  unfold requireProjectOwner requireProjectMember ensureProjectExists findProjectMembership
  simp [hproj, hfind, normalizeRole, hrole]

/-- C8: `removeProjectMember` is gated exactly as claimed.  A caller whose
membership row is not `owner` gets Forbidden with nothing changed; for an
owner caller, removing oneself fails with 400, and removing a member who
still holds a non-DONE task assignment in the project fails with 409, the
membership rows untouched in both cases. -/
theorem removeMember_guards (st : DBState) (pid memberId uid : Nat)
    (row : ProjectMemberRow)
    (hproj : projectExists st pid = true)
    (hfind : findMembershipRow st pid uid = some row)
    (hrole : row.role = "owner") :
    (memberId = uid →
        removeProjectMember st pid memberId uid
          = (st, .error ⟨400, "Owners cannot remove themselves"⟩))
    ∧ (∀ row2, memberId ≠ uid →
        findMembershipRow st pid memberId = some row2 →
        0 < countOpenAssignments st pid memberId →
        removeProjectMember st pid memberId uid
          = (st, .error ⟨409, "Reassign open tasks before removing them"⟩))
    ∧ (∀ st2 pid2 memberId2 uid2 row3,
        projectExists st2 pid2 = true →
        findMembershipRow st2 pid2 uid2 = some row3 →
        row3.role ≠ "owner" →
        removeProjectMember st2 pid2 memberId2 uid2
          = (st2, .error ⟨403, "Only the project owner can perform this action"⟩)) := by
  have hp := List.find?_some hfind
  simp only [Bool.and_eq_true, beq_iff_eq] at hp
  have huid : row.userId = uid := hp.2
  have howner := requireProjectOwner_of_owner_row st pid uid row hproj hfind hrole
  refine ⟨?_, ?_, ?_⟩
  · intro heq
    unfold removeProjectMember
    rw [howner]
    have hbeq : (memberId == row.userId) = true := by
      rw [huid, heq]
      exact beq_self_eq_true uid
    simp [hbeq]
  · intro row2 hne hfind2 hcount
    unfold removeProjectMember
    rw [howner]
    have hbeq : (memberId == row.userId) = false := by
      rw [huid]
      exact beq_eq_false_iff_ne.mpr hne
    simp only [hbeq, Bool.false_eq_true, if_false, hfind2]
    rw [if_pos hcount]
  · intro st2 pid2 memberId2 uid2 row3 hproj2 hfind2 hrole3
    unfold removeProjectMember
    rw [requireProjectOwner_of_other_row st2 pid2 uid2 row3 hproj2 hfind2 hrole3]

/-- C8 witness: owner 10 cannot remove member 20 while task 11 (IN_PROGRESS)
is assigned to them — the call answers 409 and changes nothing. -/
theorem removeMember_guards_witness :
    removeProjectMember removalDB 1 20 10
      = (removalDB, .error ⟨409, "Reassign open tasks before removing them"⟩) := by
  exact (removeMember_guards removalDB 1 20 10 demoOwnerRow rfl rfl rfl).2.1
    demoMemberRow (by decide) rfl (by decide)

/-! ## C9 -/

/-- C9: the public create pipeline starts every task without project or
assignee.  The create schema strips `projectId`/`assigneeId` from the body;
the INSERT stores the creator as `user_id` and leaves `project_id` and
`assignee_id` NULL; and a project-less task of the user is attached to the
anchor project by the baseline provisioning that `listProjects` runs. -/
theorem created_tasks_start_projectless :
    (∀ raw pid aid,
        createTaskSchemaParse { raw with projectId := pid, assigneeId := aid }
          = createTaskSchemaParse raw)
    ∧ (∀ st uid input newId now,
        (createTask st uid input newId now).2.userId = some uid
        ∧ (createTask st uid input newId now).2.projectId = none
        ∧ (createTask st uid input newId now).2.assigneeId = none
        ∧ (createTask st uid input newId now).1.tasks
            = st.tasks ++ [(createTask st uid input newId now).2])
    ∧ (∀ st uid npid nmid now t, t ∈ st.tasks → t.userId = some uid →
        t.projectId = none →
        { t with projectId := some (ensureProjectBaselineForUser st uid npid nmid now).2 }
          ∈ (listProjects st uid npid nmid now).1.tasks) := by
  refine ⟨fun _ _ _ => rfl, fun _ _ _ _ _ => ⟨rfl, rfl, rfl, rfl⟩, ?_⟩
  intro st uid npid nmid now t ht huser hproj
  have hcond : (t.userId == some uid && t.projectId == none) = true := by
    simp [huser, hproj]
  show { t with projectId := some (ensureProjectBaselineForUser st uid npid nmid now).2 }
    ∈ (ensureProjectBaselineForUser st uid npid nmid now).1.tasks
  cases hfind : st.projectMembers.find? (fun m => m.userId == uid) with
  | some m =>
      simp only [ensureProjectBaselineForUser, hfind, attachOwnerlessTasks]
      refine List.mem_map.mpr ⟨t, ht, ?_⟩
      simp [hcond]
  | none =>
      simp only [ensureProjectBaselineForUser, hfind, attachOwnerlessTasks]
      refine List.mem_map.mpr ⟨t, ht, ?_⟩
      simp [hcond]

/-- C9 witness: user 30's legacy task 12 has no project; provisioning run by
`listProjects` attaches it to the freshly created personal project 50. -/
theorem created_tasks_start_projectless_witness :
    { orphanTask with projectId := some 50 }
      ∈ (listProjects orphanDB 30 50 51 5).1.tasks := by
  exact created_tasks_start_projectless.2.2 orphanDB 30 50 51 5 orphanTask
    (List.mem_singleton_self orphanTask) rfl rfl

/-! ## C10 -/

/-- C10: role normalization is fail-closed.  Every stored role string other
than exactly `owner` (and a NULL role) normalizes to `member`, in both
copies of `normalizeRole`; consequently `requireProjectOwner` answers
Forbidden for any membership row whose stored role is not exactly
`owner`. -/
theorem role_normalization_fail_closed :
    (∀ s : String, s ≠ "owner" → normalizeRole (some s) = ProjectRole.member)
    ∧ normalizeRole none = ProjectRole.member
    ∧ (∀ s : String, s ≠ "owner" → normalizeRoleStr s = ProjectRole.member)
    ∧ (∀ st pid uid row, projectExists st pid = true →
        findMembershipRow st pid uid = some row → row.role ≠ "owner" →
        requireProjectOwner st pid uid
          = .error ⟨403, "Only the project owner can perform this action"⟩) := by
  refine ⟨?_, rfl, ?_, ?_⟩
  · intro s hs
    unfold normalizeRole
    rw [if_neg]
    simpa using hs
  · intro s hs
    unfold normalizeRoleStr
    rw [if_neg hs]
  · intro st pid uid row hproj hfind hrole
    exact requireProjectOwner_of_other_row st pid uid row hproj hfind hrole

/-- C10 witness: a row whose stored role is `admin` is treated as a plain
member and the owner gate rejects the call. -/
theorem role_normalization_fail_closed_witness :
    requireProjectOwner weirdRoleDB 1 30
      = .error ⟨403, "Only the project owner can perform this action"⟩ := by
  exact role_normalization_fail_closed.2.2.2 weirdRoleDB 1 30 weirdRoleRow rfl rfl
    (by decide)

end TaskManager
